import Mathlib

/-!
Verification of the asset-synchronization engine of `vite-plugin-shopify-assets`
(target resolution, asset-map construction with deduplication, the copy/rename
pipeline, the stale-file cleanup reconciler, and the watch-event handler).

The repository ships two build-plugin variants: the bundle-diffing variant
(`packages/vite-plugin-shopify-assets/src/build.ts`) and the manifest-diffing
variant (the unnamed `build.ts` sibling).  Both are embedded below.

Paths are modelled as canonical POSIX strings: `path.join`/`path.resolve` on
already-normalized inputs reduce to the string operations used here, and Vite's
`normalizePath` is the identity on POSIX paths.
-/

namespace ShopifyAssets

/-- Splitting a character list on a separator character; kernel-computable
equivalent of `String.splitOn` with a one-character separator. -/
def splitOnChar (sep : Char) : List Char → List (List Char)
  | [] => [[]]
  | c :: cs =>
    match splitOnChar sep cs with
    | [] => [[]]
    | h :: t => if c = sep then [] :: h :: t else (c :: h) :: t

/-- String version of `splitOnChar`. -/
def splitOnStr (sep : Char) (p : String) : List String :=
  (splitOnChar sep p.data).map String.mk

/-- Kernel-computable equivalent of `String.startsWith`. -/
def strStartsWith (p pre : String) : Bool :=
  pre.data.isPrefixOf p.data

/-- Node `path.isAbsolute` on POSIX: the path starts with a slash. -/
def isAbsolute (p : String) : Bool :=
  p.data.headD ' ' == '/'

/-- Node `path.join a b` on canonical POSIX inputs. -/
def joinPath (a b : String) : String :=
  a ++ "/" ++ b

/-- Node `path.resolve a b` on canonical POSIX inputs: an absolute second
argument wins, otherwise it is joined onto the first. -/
def resolvePath (a b : String) : String :=
  if isAbsolute b then b else joinPath a b

/-- Vite `normalizePath`: on POSIX canonical paths it is the identity
(it only rewrites Windows separators). -/
def normalizePath (p : String) : String := p

/-- Node `path.basename`: the component after the last separator. -/
def basenameOf (p : String) : String :=
  (splitOnStr '/' p).getLastD ""

/-- Node `path.dirname`: everything before the last separator, `"."` when
there is none, `"/"` at the root. -/
def dirnameOf (p : String) : String :=
  let parts := splitOnStr '/' p
  if parts.length ≤ 1 then "."
  else if parts.dropLast = [""] then "/"
  else String.intercalate "/" parts.dropLast

/-- Nonempty components of a canonical path. -/
def pathParts (p : String) : List String :=
  (splitOnStr '/' p).filter (fun c => c ≠ "")

/-- Length of the shared leading run of two component lists. -/
def commonPrefixLen : List String → List String → Nat
  | a :: as, b :: bs => if a = b then commonPrefixLen as bs + 1 else 0
  | _, _ => 0

/-- Components of Node `path.relative base target` for canonical absolute
inputs: one `..` per leftover base component, then the leftover target
components. -/
def relativeParts (base target : String) : List String :=
  let b := pathParts base
  let t := pathParts target
  let k := commonPrefixLen b t
  List.replicate (b.length - k) ".." ++ t.drop k

/-- Node `path.relative` as a string. -/
def relString (base target : String) : String :=
  String.intercalate "/" (relativeParts base target)

/-- Embedding of `utils.ts` `isChildDir`: the relative path from `base` to
`target` is nonempty, does not start with `..`, and is not absolute. -/
def isChildDir (base target : String) : Bool :=
  let relation := relativeParts base target
  !relation.isEmpty
    && !(strStartsWith (relation.headD "") "..")
    && !(isAbsolute (relString base target))

/-- Node `path.parse` restricted to a basename: the pair `(name, ext)`.
The extension starts at the last dot, except that a single leading dot
(e.g. `.gitignore`) yields an empty extension. -/
def parseNameExt (b : String) : String × String :=
  let parts := splitOnStr '.' b
  if parts.length ≤ 1 then (b, "")
  else if parts.head? = some "" ∧ parts.length = 2 then (b, "")
  else (String.intercalate "." parts.dropLast, "." ++ parts.getLastD "")

/-- A rename operation: a fixed string or a callback of
(base name, extension without the dot, full source path). -/
inductive Rename where
  | fixed (s : String)
  | func (f : String → String → String → String)

/-- Embedding of `utils.ts` `renameFile`: a string rename is returned as is;
a callback receives the parsed name, the extension with its first dot
removed (JS `ext.replace('.', '')`), and the second argument `src`. -/
def renameFile (file src : String) (r : Rename) : String :=
  match r with
  | .fixed s => s
  | .func f => f (parseNameExt file).1 ((parseNameExt file).2.drop 1) src

/-- The `force` option of a user target: a boolean or the string `'error'`. -/
inductive ForceOpt where
  | b (v : Bool)
  | error
deriving DecidableEq

/-- Embedding of `options.ts` `ResolvedTarget`. -/
structure ResolvedTarget where
  src : String
  dest : String
  cleanMatch : Option String
  ignore : List String
  rename : Option Rename
  dereference : Bool
  errorOnExist : Bool
  force : Bool
  mode : Nat
  preserveTimestamps : Bool

/-- Embedding of `options.ts` `Target` (user-declared rule), optional fields
as `Option`. The `ignore` field is an array or a single string. -/
structure Target0 where
  src : String
  dest : Option String := none
  cleanMatch : Option String := none
  ignore : Option (List String ⊕ String) := none
  rename : Option Rename := none
  dereference : Option Bool := none
  force : Option ForceOpt := none
  preserveTimestamps : Option Bool := none

/-- Modelled from the spec: `constants.js` is not under `src/`; the default
destination is documented as `<themeRoot>/assets`, so the theme assets
directory name constant is `"assets"`. -/
def THEME_ASSETS_DIRNAME : String := "assets"

/-- Modelled from the spec: `fs.constants.COPYFILE_EXCL` (Node constant,
external to the repository), used as the copy mode when `force = 'error'`. -/
def COPYFILE_EXCL : Nat := 1

/-- Embedding of `options.ts` `resolveCleanMatch`.  Returns the resolved
cleanMatch (or `none` when disabled) together with whether a configuration
warning was printed.  JS truthiness: an unset or empty `cleanMatch`/`dest`
is falsy. -/
def resolveCleanMatch (themeRoot : String) (dest : Option String)
    (cleanMatch : Option String) (silent : Bool) : Option String × Bool :=
  match cleanMatch with
  | none => (none, false)
  | some cm =>
    if cm = "" then (none, false)
    else match dest with
    | none => (none, !silent)
    | some d =>
      if d = "" ∨ d = THEME_ASSETS_DIRNAME then (none, !silent)
      else if cm = "**/*" ∨ cm = "**/*.*" ∨ cm = "**" ∨ cm = "*" ∨ cm = "*.*" then
        (none, !silent)
      else (some (normalizePath (joinPath (joinPath themeRoot d) cm)), false)

/-- Embedding of the per-target branch of `options.ts` `resolveOptions`:
a bare string target or a full `Target` object is resolved to a
`ResolvedTarget`; a dynamic destination pattern is a configuration error.
The dynamic-pattern test of the external glob engine is a parameter. -/
def resolveTargetEntry (isDyn : String → Bool)
    (publicDir themeRoot themeAssetsDir : String) (silent : Bool)
    (t : String ⊕ Target0) : Except String ResolvedTarget :=
  match t with
  | .inl s => .ok {
      src := joinPath publicDir s
      dest := resolvePath themeRoot themeAssetsDir
      cleanMatch := none
      ignore := []
      rename := none
      dereference := true
      errorOnExist := false
      force := true
      mode := 0
      preserveTimestamps := true }
  | .inr tg =>
    if (tg.dest.getD "") ≠ "" ∧ isDyn (tg.dest.getD "") then
      .error "[shopify-assets] Dynamic patterns are not supported in target.dest"
    else .ok {
      src := joinPath publicDir tg.src
      dest := match tg.dest with
        | some d => if d = "" then themeAssetsDir else joinPath themeRoot d
        | none => themeAssetsDir
      cleanMatch := (resolveCleanMatch themeRoot tg.dest tg.cleanMatch silent).1
      ignore := match tg.ignore with
        | some (.inl arr) => arr.map (fun i => normalizePath (joinPath publicDir i))
        | some (.inr s) => [normalizePath (joinPath publicDir s)]
        | none => []
      rename := tg.rename
      dereference := tg.dereference.getD true
      errorOnExist := decide (tg.force = some .error)
      force := if tg.force = some .error then false else true
      mode := if tg.force = some .error then COPYFILE_EXCL else 0
      preserveTimestamps := tg.preserveTimestamps.getD true }

/-- The mutable per-cycle state of the build plugin: the asset map
(`assetMap`, a JS `Map` modelled as an ordered association list with unique
keys), the watched-directories set (`assetDirSet`), the destination dedup set
(`assetDestSet`), the protected-basenames set (`assetFilesSet`), and the
warnings printed so far. -/
structure BuildState where
  assetMap : List (String × ResolvedTarget)
  assetDirSet : List String
  assetDestSet : List String
  assetFilesSet : List String
  warnings : List String

/-- JS `Set.add`: append the element unless already present. -/
def insertSet (l : List String) (x : String) : List String :=
  if x ∈ l then l else l ++ [x]

/-- Keys (in insertion order) of an association-list map. -/
def mapKeys (m : List (String × ResolvedTarget)) : List String :=
  m.map Prod.fst

/-- JS `Map.set`: replace the value in place when the key exists, otherwise
append a new entry. -/
def mapSet (m : List (String × ResolvedTarget)) (k : String)
    (v : ResolvedTarget) : List (String × ResolvedTarget) :=
  if k ∈ mapKeys m then m.map (fun p => if p.1 = k then (k, v) else p)
  else m ++ [(k, v)]

/-- JS `Map.get`. -/
def mapLookup (m : List (String × ResolvedTarget)) (k : String) :
    Option ResolvedTarget :=
  (m.find? (fun p => p.1 == k)).map Prod.snd

/-- JS `Map.delete`. -/
def mapErase (m : List (String × ResolvedTarget)) (k : String) :
    List (String × ResolvedTarget) :=
  m.filter (fun p => p.1 != k)

/-- The configuration facts `buildStart` reads: plugin options and whether
Rollup runs in watch mode. -/
structure WatchCfg where
  publicDir : String
  themeAssetsDir : String
  onWatch : Bool
  watchMode : Bool
  silent : Bool

/-- The duplicate-asset warning of `buildStart`. -/
def dupWarning (publicDir file : String) : String :=
  "Duplicate asset found. Ignoring " ++ normalizePath (relString publicDir file)

/-- The destination basename `buildStart` computes for a matched file:
the rename applied to the basename (the callback's third argument being the
full source path), else the basename. -/
def processFileName (t : ResolvedTarget) (file : String) : String :=
  match t.rename with
  | some r => renameFile (basenameOf file) file r
  | none => basenameOf file

/-- The resolved destination `buildStart` computes for a matched file. -/
def resolvedDestOf (t : ResolvedTarget) (file : String) : String :=
  normalizePath (resolvePath t.dest (processFileName t file))

/-- Embedding of the per-file body of `buildStart` (`build.ts`): collect the
watch directory, then either skip a duplicate destination (warning when not
silent) or insert into the asset map, dedup set and protected-basenames
set.  The manifest-diffing variant's `buildStart` is the same computation
(it uses `join` instead of `resolve` for the destination, identical on
relative renamed basenames). -/
def processFile (cfg : WatchCfg) (t : ResolvedTarget) (s : BuildState)
    (file : String) : BuildState :=
  let resolvedDest := resolvedDestOf t file
  let s1 :=
    if cfg.onWatch && cfg.watchMode then
      { s with assetDirSet := (insertSet s.assetDirSet
          (normalizePath (resolvePath cfg.themeAssetsDir (dirnameOf file)))) }
    else s
  if resolvedDest ∈ s1.assetDestSet then
    if cfg.silent then s1
    else { s1 with warnings := s1.warnings ++ [dupWarning cfg.publicDir file] }
  else
    { s1 with
      assetDestSet := s1.assetDestSet ++ [resolvedDest]
      assetMap := mapSet s1.assetMap file { t with dest := resolvedDest }
      assetFilesSet := insertSet s1.assetFilesSet (basenameOf file) }

/-- Processing a list of (rule, matched file) events in order. -/
def processEvents (cfg : WatchCfg) (s : BuildState)
    (evs : List (ResolvedTarget × String)) : BuildState :=
  evs.foldl (fun acc e => processFile cfg e.1 acc e.2) s

/-- Embedding of `buildStart`: clear the asset map and the dedup set (only
those two), then fold the targets in declaration order, expanding each
target's source glob through the glob-engine oracle `glob`. -/
def buildStartPass (cfg : WatchCfg) (s : BuildState)
    (targets : List ResolvedTarget)
    (glob : String → List String → List String) : BuildState :=
  targets.foldl
    (fun acc t =>
      (glob (normalizePath t.src) t.ignore).foldl
        (fun acc2 f => processFile cfg t acc2 f) acc)
    { s with assetMap := [], assetDestSet := [] }

/-- An entry of the Rollup output bundle: an emitted asset, or a code chunk
carrying the stylesheet and asset files it references. -/
inductive BundleEntry where
  | asset
  | chunk (importedCss importedAssets : List String)

/-- Modelled from the spec: `getBundleFiles` is imported by `build.ts` from a
`utils.ts` revision not under `src/`.  Per the spec's output-listing strategy
(and the identical inline reduction in `getFilesToDeleteInThemeAssets`), it
lists every bundle file name, adds the css/asset files referenced by chunks,
and collapses internal `.vite/` bookkeeping paths to `.vite`. -/
def getBundleFiles (bundle : List (String × BundleEntry)) : List String :=
  bundle.foldl
    (fun acc p =>
      if strStartsWith p.1 ".vite/" then acc ++ [".vite"]
      else match p.2 with
        | .asset => acc ++ [p.1]
        | .chunk css assets => acc ++ [p.1] ++ css ++ assets)
    []

/-- Result of a cleanup pass: the set of files handed to deletion, and
whether the pass returned early (skipped before computing any deletion). -/
structure CleanupResult where
  filesToDelete : List String
  skipped : Bool
deriving DecidableEq

/-- The `clean` flag of the bundle-diffing variant (`build.ts` `config`):
Vite's `emptyOutDir` is not disabled and the theme assets directory is a
strict child of the theme root. -/
def cleanFlagBundle (emptyOutDir : Option Bool)
    (themeRoot themeAssetsDir : String) : Bool :=
  (emptyOutDir != some false) && isChildDir themeRoot themeAssetsDir

/-- The `clean` flag of the manifest-diffing variant (`config`): only checks
that Vite's `emptyOutDir` is not disabled (the nesting check is a TODO
comment there). -/
def cleanFlagManifest (emptyOutDir : Option Bool) : Bool :=
  emptyOutDir != some false

/-- Embedding of `writeBundle` of the bundle-diffing variant (`build.ts`):
when `clean` holds, the theme-assets directory listing minus the bundle
files and the protected basenames, unioned with every target's expanded
`cleanMatch` minus the destinations claimed in the dedup set.  The
directory listing and the `cleanMatch` glob expansion are oracles. -/
def writeBundleClean (clean : Bool) (themeAssetsDir : String)
    (targets : List ResolvedTarget) (s : BuildState)
    (themeAssetFiles : List String) (bundle : List (String × BundleEntry))
    (globClean : String → List String) : CleanupResult :=
  if !clean then ⟨[], true⟩
  else
    let newBundleFiles := getBundleFiles bundle
    let oldFiles :=
      (themeAssetFiles.filter
        (fun f => !(newBundleFiles.contains f) && !(s.assetFilesSet.contains f))).map
        (fun f => normalizePath (joinPath themeAssetsDir f))
    let filesToDelete := oldFiles.foldl insertSet []
    let filesToDelete := targets.foldl
      (fun acc t =>
        match t.cleanMatch with
        | none => acc
        | some cm =>
          let matchFiles := globClean cm
          let matchToDelete := matchFiles.filter (fun f => !(s.assetDestSet.contains f))
          matchToDelete.foldl insertSet acc)
      filesToDelete
    ⟨filesToDelete, false⟩

/-- An entry of the persisted Vite manifest: the emitted file, optional
associated stylesheets, optional imported module keys. -/
structure ManifestBlock where
  file : String
  css : Option (List String)
  imports : Option (List String)

/-- Embedding of `getFilesInManifest` (`utils` revision concatenated in
`build.ts`): every declared output file, including css siblings and files of
underscore-prefixed entries reachable through another entry's import list. -/
def getFilesInManifest (manifest : List (String × ManifestBlock)) : List String :=
  let filesListedInImports :=
    manifest.foldl (fun acc p => acc ++ (p.2.imports.getD [])) []
  (manifest.map (fun p =>
    (if strStartsWith p.1 "_" && filesListedInImports.contains p.1
     then [p.2.file] else [])
    ++ (p.2.css.getD []) ++ [p.2.file])).flatten

/-- Embedding of `writeBundle` of the manifest-diffing variant: skip when
`clean` is off, when the manifest is not enabled, or when the manifest asset
is absent from the bundle (`bundleLookup` yields the parsed manifest of a
bundle entry that is an asset with a source); otherwise the assets-directory
listing minus `.vite`, the manifest file, the manifest-declared files and
the protected basenames, plus each asset-map entry's expanded `cleanMatch`
ignoring only that entry's own destination. -/
def writeBundleManifest (clean : Bool) (manifestFile : Option String)
    (themeAssetsDir : String) (s : BuildState) (filesInAssetDir : List String)
    (bundleLookup : String → Option (List (String × ManifestBlock)))
    (globIgnore : String → List String → List String) : CleanupResult :=
  if !clean then ⟨[], true⟩
  else match manifestFile with
  | none => ⟨[], true⟩
  | some mf =>
    match bundleLookup mf with
    | none => ⟨[], true⟩
    | some manifest =>
      let filesInManifest := getFilesInManifest manifest
      let filesToDelete :=
        (filesInAssetDir.filter
          (fun f => !(f == ".vite" || f == mf || filesInManifest.contains f
            || s.assetFilesSet.contains f))).map
          (fun f => joinPath themeAssetsDir f)
      let filesToDelete :=
        (s.assetMap.map Prod.snd).foldl
          (fun acc t =>
            match t.cleanMatch with
            | none => acc
            | some cm => acc ++ globIgnore cm [t.dest])
          filesToDelete
      ⟨filesToDelete, false⟩

/-- Embedding of `getFilesToDeleteInThemeAssets` (`utils.ts`): empty when the
bundle is empty, otherwise the directory listing minus the bundle files
(the inline reduction over the bundle is `getBundleFiles`). -/
def getFilesToDeleteInThemeAssets (themeAssetsDir : String)
    (bundle : List (String × BundleEntry))
    (filesInAssetsDir : List String) : List String :=
  if bundle.isEmpty then []
  else
    let filesInBundle := getBundleFiles bundle
    (filesInAssetsDir.filter (fun f => !(filesInBundle.contains f))).map
      (fun f => joinPath themeAssetsDir f)

/-- A file-system watch notification kind. -/
inductive WatchEvent where
  | create
  | update
  | delete
deriving DecidableEq

/-- Observable outcome of a `watchChange` invocation: the updated state, the
destination path handed to `unlink` (if any), and the relative path logged
with the delete event (for the bundle-diffing variant, logged after the
unlink succeeds). -/
structure WatchOut where
  state : BuildState
  unlinkDest : Option String
  loggedDelete : Option String

/-- Embedding of `watchChange` of the bundle-diffing variant (`build.ts`):
ignore files outside the watched directories or not in the asset map; on
delete, unlink the destination when it exists (logging the delete), and
remove the map entry and the source basename from the protected set. -/
def watchChangeBuild (destExists : String → Bool) (themeRoot : String)
    (s : BuildState) (fileChanged : String) (event : WatchEvent) : WatchOut :=
  if dirnameOf fileChanged ∈ s.assetDirSet then
    match mapLookup s.assetMap fileChanged with
    | none => ⟨s, none, none⟩
    | some asset =>
      match event with
      | .delete =>
        let normalizedDest := normalizePath asset.dest
        let act : Option String × Option String :=
          if destExists normalizedDest
          then (some normalizedDest, some (relString themeRoot asset.dest))
          else (none, none)
        ⟨{ s with
            assetMap := mapErase s.assetMap fileChanged
            assetFilesSet := s.assetFilesSet.filter
              (fun x => x != basenameOf fileChanged) },
          act.1, act.2⟩
      | _ => ⟨s, none, none⟩
  else ⟨s, none, none⟩

/-- Embedding of `watchChange` of the manifest-diffing variant: same guards;
on delete it removes the map entry and the source basename and logs a delete
event, but issues no `unlink` of the destination file. -/
def watchChangeManifestVariant (themeRoot : String) (s : BuildState)
    (fileChanged : String) (event : WatchEvent) : WatchOut :=
  if dirnameOf fileChanged ∈ s.assetDirSet then
    match mapLookup s.assetMap fileChanged with
    | none => ⟨s, none, none⟩
    | some asset =>
      match event with
      | .delete =>
        ⟨{ s with
            assetMap := mapErase s.assetMap fileChanged
            assetFilesSet := s.assetFilesSet.filter
              (fun x => x != basenameOf fileChanged) },
          none, some (relString themeRoot asset.dest)⟩
      | _ => ⟨s, none, none⟩
  else ⟨s, none, none⟩

/-- The destination path computed by `utils.ts` `copyAsset` (and the
identical computation in `deleteAsset`) for a watch-event file: the rename
receives `parse(fileChanged).base` both as the file to parse and as the
`src` argument. -/
def copyAssetDestPath (t : ResolvedTarget) (fileChanged : String) : String :=
  let file := basenameOf fileChanged
  match t.rename with
  | some r => resolvePath t.dest (renameFile file file r)
  | none => resolvePath t.dest file

/-- The destination path computed by `utils.ts` `copyAllAssets` for a globbed
source file: the rename receives the full source path as `src`. -/
def copyAllAssetsDestPath (t : ResolvedTarget) (src : String) : String :=
  let file := basenameOf src
  match t.rename with
  | some r => resolvePath t.dest (renameFile file src r)
  | none => resolvePath t.dest file

/-! Helper lemmas about the JS set/map embeddings. -/

theorem mem_insertSet {l : List String} {x y : String} :
    x ∈ insertSet l y ↔ x ∈ l ∨ x = y := by
  unfold insertSet
  split
  · constructor
    · exact Or.inl
    · rintro (hx | rfl) <;> assumption
  · simp [List.mem_append]

theorem mem_insertSet_of_mem {l : List String} {x : String} (y : String)
    (h : x ∈ l) : x ∈ insertSet l y :=
  mem_insertSet.mpr (Or.inl h)

theorem self_mem_insertSet (l : List String) (y : String) :
    y ∈ insertSet l y :=
  mem_insertSet.mpr (Or.inr rfl)

theorem mapKeys_mapSet (m : List (String × ResolvedTarget)) (k : String)
    (v : ResolvedTarget) :
    mapKeys (mapSet m k v) = if k ∈ mapKeys m then mapKeys m else mapKeys m ++ [k] := by
  unfold mapSet
  split
  · simp only [if_pos ‹k ∈ mapKeys m›, mapKeys, List.map_map]
    apply List.map_congr_left
    intro p _
    by_cases hp : p.1 = k <;> simp [hp]
  · simp [mapKeys, ‹¬ k ∈ mapKeys m›]

theorem mem_mapKeys_mapSet_self (m : List (String × ResolvedTarget))
    (k : String) (v : ResolvedTarget) : k ∈ mapKeys (mapSet m k v) := by
  rw [mapKeys_mapSet]
  split
  · assumption
  · simp

theorem mem_mapKeys_mapSet_of_mem {m : List (String × ResolvedTarget)}
    {x : String} (k : String) (v : ResolvedTarget) (h : x ∈ mapKeys m) :
    x ∈ mapKeys (mapSet m k v) := by
  rw [mapKeys_mapSet]
  split
  · assumption
  · simp [h]

theorem mem_mapSet_self (m : List (String × ResolvedTarget)) (k : String)
    (v : ResolvedTarget) : (k, v) ∈ mapSet m k v := by
  unfold mapSet
  split
  · rename_i hk
    simp only [mapKeys, List.mem_map] at hk
    obtain ⟨p, hp, hpk⟩ := hk
    rw [List.mem_map]
    exact ⟨p, hp, by simp [hpk]⟩
  · simp

/-! Case lemmas for `processFile`. -/

theorem processFile_assetDirSet (cfg : WatchCfg) (t : ResolvedTarget)
    (s : BuildState) (file : String) :
    (processFile cfg t s file).assetDirSet =
      if cfg.onWatch && cfg.watchMode then
        insertSet s.assetDirSet
          (normalizePath (resolvePath cfg.themeAssetsDir (dirnameOf file)))
      else s.assetDirSet := by
  by_cases hw : (cfg.onWatch && cfg.watchMode) = true <;>
    by_cases hmem : resolvedDestOf t file ∈ s.assetDestSet <;>
      by_cases hs : cfg.silent = true <;>
        simp [processFile, hw, hmem, hs]

theorem processFile_dup (cfg : WatchCfg) (t : ResolvedTarget) (s : BuildState)
    (file : String) (h : resolvedDestOf t file ∈ s.assetDestSet) :
    (processFile cfg t s file).assetMap = s.assetMap ∧
    (processFile cfg t s file).assetDestSet = s.assetDestSet ∧
    (processFile cfg t s file).assetFilesSet = s.assetFilesSet ∧
    (processFile cfg t s file).warnings =
      (if cfg.silent then s.warnings
       else s.warnings ++ [dupWarning cfg.publicDir file]) := by
  by_cases hw : (cfg.onWatch && cfg.watchMode) = true <;>
    by_cases hs : cfg.silent = true <;>
      simp [processFile, hw, h, hs]

theorem processFile_fresh (cfg : WatchCfg) (t : ResolvedTarget)
    (s : BuildState) (file : String)
    (h : resolvedDestOf t file ∉ s.assetDestSet) :
    (processFile cfg t s file).assetMap =
      mapSet s.assetMap file { t with dest := resolvedDestOf t file } ∧
    (processFile cfg t s file).assetDestSet =
      s.assetDestSet ++ [resolvedDestOf t file] ∧
    (processFile cfg t s file).assetFilesSet =
      insertSet s.assetFilesSet (basenameOf file) ∧
    (processFile cfg t s file).warnings = s.warnings := by
  by_cases hw : (cfg.onWatch && cfg.watchMode) = true <;>
    by_cases hs : cfg.silent = true <;>
      simp [processFile, hw, h, hs]

/-! Monotonicity of the per-cycle state under event processing. -/

theorem processFile_destSet_mono (cfg : WatchCfg) (t : ResolvedTarget)
    (s : BuildState) (file : String) {x : String} (h : x ∈ s.assetDestSet) :
    x ∈ (processFile cfg t s file).assetDestSet := by
  by_cases hmem : resolvedDestOf t file ∈ s.assetDestSet
  · rw [(processFile_dup cfg t s file hmem).2.1]
    exact h
  · rw [(processFile_fresh cfg t s file hmem).2.1]
    exact List.mem_append_left _ h

theorem processFile_filesSet_mono (cfg : WatchCfg) (t : ResolvedTarget)
    (s : BuildState) (file : String) {x : String} (h : x ∈ s.assetFilesSet) :
    x ∈ (processFile cfg t s file).assetFilesSet := by
  by_cases hmem : resolvedDestOf t file ∈ s.assetDestSet
  · rw [(processFile_dup cfg t s file hmem).2.2.1]
    exact h
  · rw [(processFile_fresh cfg t s file hmem).2.2.1]
    exact mem_insertSet_of_mem _ h

theorem processFile_dirSet_mono (cfg : WatchCfg) (t : ResolvedTarget)
    (s : BuildState) (file : String) {x : String} (h : x ∈ s.assetDirSet) :
    x ∈ (processFile cfg t s file).assetDirSet := by
  rw [processFile_assetDirSet]
  split
  · exact mem_insertSet_of_mem _ h
  · exact h

theorem processFile_keys_mono (cfg : WatchCfg) (t : ResolvedTarget)
    (s : BuildState) (file : String) {x : String}
    (h : x ∈ mapKeys s.assetMap) :
    x ∈ mapKeys (processFile cfg t s file).assetMap := by
  by_cases hmem : resolvedDestOf t file ∈ s.assetDestSet
  · rw [(processFile_dup cfg t s file hmem).1]
    exact h
  · rw [(processFile_fresh cfg t s file hmem).1]
    exact mem_mapKeys_mapSet_of_mem _ _ h

theorem processEvents_cons (cfg : WatchCfg) (s : BuildState)
    (e : ResolvedTarget × String) (evs : List (ResolvedTarget × String)) :
    processEvents cfg s (e :: evs) =
      processEvents cfg (processFile cfg e.1 s e.2) evs := rfl

theorem processEvents_destSet_mono (cfg : WatchCfg)
    (evs : List (ResolvedTarget × String)) :
    ∀ (s : BuildState) {x : String}, x ∈ s.assetDestSet →
      x ∈ (processEvents cfg s evs).assetDestSet := by
  induction evs with
  | nil => exact fun s _ h => h
  | cons e evs ih =>
    intro s x h
    rw [processEvents_cons]
    exact ih _ (processFile_destSet_mono cfg e.1 s e.2 h)

theorem processEvents_filesSet_mono (cfg : WatchCfg)
    (evs : List (ResolvedTarget × String)) :
    ∀ (s : BuildState) {x : String}, x ∈ s.assetFilesSet →
      x ∈ (processEvents cfg s evs).assetFilesSet := by
  induction evs with
  | nil => exact fun s _ h => h
  | cons e evs ih =>
    intro s x h
    rw [processEvents_cons]
    exact ih _ (processFile_filesSet_mono cfg e.1 s e.2 h)

theorem processEvents_dirSet_mono (cfg : WatchCfg)
    (evs : List (ResolvedTarget × String)) :
    ∀ (s : BuildState) {x : String}, x ∈ s.assetDirSet →
      x ∈ (processEvents cfg s evs).assetDirSet := by
  induction evs with
  | nil => exact fun s _ h => h
  | cons e evs ih =>
    intro s x h
    rw [processEvents_cons]
    exact ih _ (processFile_dirSet_mono cfg e.1 s e.2 h)

theorem processEvents_keys_mono (cfg : WatchCfg)
    (evs : List (ResolvedTarget × String)) :
    ∀ (s : BuildState) {x : String}, x ∈ mapKeys s.assetMap →
      x ∈ mapKeys (processEvents cfg s evs).assetMap := by
  induction evs with
  | nil => exact fun s _ h => h
  | cons e evs ih =>
    intro s x h
    rw [processEvents_cons]
    exact ih _ (processFile_keys_mono cfg e.1 s e.2 h)

/-- The processing-order flattening of a `buildStart` pass: targets in
declaration order, each paired with its glob expansion in engine order. -/
def flattenEvents (targets : List ResolvedTarget)
    (glob : String → List String → List String) :
    List (ResolvedTarget × String) :=
  targets.flatMap (fun t => (glob (normalizePath t.src) t.ignore).map (fun f => (t, f)))

theorem foldl_processFile_eq_processEvents (cfg : WatchCfg) (t : ResolvedTarget)
    (files : List String) :
    ∀ s : BuildState,
      files.foldl (fun acc2 f => processFile cfg t acc2 f) s =
        processEvents cfg s (files.map (fun f => (t, f))) := by
  induction files with
  | nil => intro s; rfl
  | cons f fs ih =>
    intro s
    simp only [List.foldl_cons, List.map_cons, processEvents_cons]
    exact ih _

theorem buildStartPass_eq_processEvents (cfg : WatchCfg) (s : BuildState)
    (targets : List ResolvedTarget)
    (glob : String → List String → List String) :
    buildStartPass cfg s targets glob =
      processEvents cfg { s with assetMap := [], assetDestSet := [] }
        (flattenEvents targets glob) := by
  unfold buildStartPass flattenEvents
  generalize { s with assetMap := [], assetDestSet := [] } = s0
  induction targets generalizing s0 with
  | nil => rfl
  | cons t ts ih =>
    simp only [List.foldl_cons, List.flatMap_cons]
    rw [foldl_processFile_eq_processEvents, ih]
    unfold processEvents
    rw [List.foldl_append]

/-! The protected-basenames invariant used for C3. -/

theorem processFile_preserves_basename_inv (cfg : WatchCfg)
    (t : ResolvedTarget) (s : BuildState) (file : String)
    (hI : ∀ k ∈ mapKeys s.assetMap, basenameOf k ∈ s.assetFilesSet) :
    ∀ k ∈ mapKeys (processFile cfg t s file).assetMap,
      basenameOf k ∈ (processFile cfg t s file).assetFilesSet := by
  intro k hk
  by_cases hmem : resolvedDestOf t file ∈ s.assetDestSet
  · obtain ⟨hm, _, hf, _⟩ := processFile_dup cfg t s file hmem
    rw [hm] at hk
    rw [hf]
    exact hI k hk
  · obtain ⟨hm, _, hf, _⟩ := processFile_fresh cfg t s file hmem
    rw [hm, mapKeys_mapSet] at hk
    rw [hf]
    rcases (by split at hk <;> simp_all : k ∈ mapKeys s.assetMap ∨ k = file) with hin | rfl
    · exact mem_insertSet_of_mem _ (hI k hin)
    · exact self_mem_insertSet _ _

theorem processFile_filesSet_sources (cfg : WatchCfg) (t : ResolvedTarget)
    (s : BuildState) (file : String) {x : String}
    (h : x ∈ (processFile cfg t s file).assetFilesSet) :
    x ∈ s.assetFilesSet ∨
      (x = basenameOf file ∧ file ∈ mapKeys (processFile cfg t s file).assetMap) := by
  by_cases hmem : resolvedDestOf t file ∈ s.assetDestSet
  · rw [(processFile_dup cfg t s file hmem).2.2.1] at h
    exact Or.inl h
  · obtain ⟨hm, _, hf, _⟩ := processFile_fresh cfg t s file hmem
    rw [hf, mem_insertSet] at h
    rcases h with h | rfl
    · exact Or.inl h
    · refine Or.inr ⟨rfl, ?_⟩
      rw [hm]
      exact mem_mapKeys_mapSet_self _ _ _

theorem processEvents_filesSet_iff (cfg : WatchCfg)
    (evs : List (ResolvedTarget × String)) :
    ∀ s : BuildState,
      (∀ k ∈ mapKeys s.assetMap, basenameOf k ∈ s.assetFilesSet) →
      ∀ x : String,
        (x ∈ (processEvents cfg s evs).assetFilesSet ↔
          x ∈ s.assetFilesSet ∨
            x ∈ (mapKeys (processEvents cfg s evs).assetMap).map basenameOf) := by
  induction evs with
  | nil =>
    intro s hI x
    constructor
    · exact Or.inl
    · rintro (h | h)
      · exact h
      · obtain ⟨k, hk, rfl⟩ := List.mem_map.mp h
        exact hI k hk
  | cons e evs ih =>
    intro s hI x
    rw [processEvents_cons]
    have hI' := processFile_preserves_basename_inv cfg e.1 s e.2 hI
    rw [ih _ hI' x]
    constructor
    · rintro (h | h)
      · rcases processFile_filesSet_sources cfg e.1 s e.2 h with h | ⟨rfl, hk⟩
        · exact Or.inl h
        · refine Or.inr (List.mem_map.mpr ⟨e.2, ?_, rfl⟩)
          exact processEvents_keys_mono cfg evs _ hk
      · exact Or.inr h
    · rintro (h | h)
      · exact Or.inl (processFile_filesSet_mono cfg e.1 s e.2 h)
      · exact Or.inr h

theorem isAbsolute_append (a b : String) (h : isAbsolute a = true) :
    isAbsolute (a ++ b) = true := by
  unfold isAbsolute at *
  rw [String.data_append]
  cases hd : a.data with
  | nil => rw [hd] at h; simp at h
  | cons c cs => rw [hd] at h; simpa using h

/-! Concrete inputs used by the C1 evaluation: one rule copying
`/r/pub/a.txt` into the theme assets directory under the renamed basename
`b.txt`, a host bundle consisting of one chunk `main.js`, and a theme
assets directory containing both files. -/

def cfgC1 : WatchCfg :=
  ⟨"/r/pub", "/r/assets", false, false, true⟩

def targetC1 : ResolvedTarget :=
  ⟨"/r/pub/a.txt", "/r/assets", none, [], some (.fixed "b.txt"),
    true, false, true, 0, true⟩

def stateC1 : BuildState :=
  buildStartPass cfgC1 ⟨[], [], [], [], []⟩ [targetC1]
    (fun _ _ => ["/r/pub/a.txt"])

/-- C1: the claim states the cleanup reconciler never deletes a file present
in the asset map, in both cleanup variants.  Evaluating the code shows the
opposite: the asset map tracks `/r/pub/a.txt` with destination
`/r/assets/b.txt` (a rename), yet both `writeBundle` variants put
`/r/assets/b.txt` into the deletion set, because the protection set holds
the source basename `a.txt` rather than the destination basename `b.txt`. -/
theorem C1_cleanup_deletes_tracked_file :
    mapKeys stateC1.assetMap = ["/r/pub/a.txt"] ∧
    stateC1.assetMap.map (fun p => p.2.dest) = ["/r/assets/b.txt"] ∧
    stateC1.assetFilesSet = ["a.txt"] ∧
    "/r/assets/b.txt" ∈ (writeBundleClean true "/r/assets" [targetC1] stateC1
      ["b.txt", "main.js"] [("main.js", .chunk [] [])]
      (fun _ => [])).filesToDelete ∧
    "/r/assets/b.txt" ∈ (writeBundleManifest true (some "manifest.json")
      "/r/assets" stateC1 ["b.txt", "main.js"]
      (fun mf => if mf = "manifest.json"
        then some [("main", ⟨"main.js", none, none⟩)] else none)
      (fun _ _ => [])).filesToDelete := by
  refine ⟨by decide, by decide, by decide, by decide, by decide⟩

/-- C2: first-match-wins deduplication.  For any prior state, any
processing-order position of two matched files resolving to the same
destination (the earlier one processed first, arbitrarily many events in
between), the later file is skipped: the asset map, dedup set and
protected-basenames set are unchanged by its processing step, a duplicate
warning is appended exactly when output is not silenced, and (when its
destination was not already claimed) the earlier file was inserted into the
asset map. -/
theorem C2_dedup_first_match_wins (cfg : WatchCfg) (s : BuildState)
    (mid : List (ResolvedTarget × String)) (t1 t2 : ResolvedTarget)
    (f1 f2 : String) (hdup : resolvedDestOf t2 f2 = resolvedDestOf t1 f1) :
    (resolvedDestOf t1 f1 ∉ s.assetDestSet →
      (f1, { t1 with dest := resolvedDestOf t1 f1 })
        ∈ (processFile cfg t1 s f1).assetMap) ∧
    (processFile cfg t2 (processEvents cfg (processFile cfg t1 s f1) mid) f2).assetMap
      = (processEvents cfg (processFile cfg t1 s f1) mid).assetMap ∧
    (processFile cfg t2 (processEvents cfg (processFile cfg t1 s f1) mid) f2).assetDestSet
      = (processEvents cfg (processFile cfg t1 s f1) mid).assetDestSet ∧
    (processFile cfg t2 (processEvents cfg (processFile cfg t1 s f1) mid) f2).assetFilesSet
      = (processEvents cfg (processFile cfg t1 s f1) mid).assetFilesSet ∧
    (cfg.silent = false →
      (processFile cfg t2 (processEvents cfg (processFile cfg t1 s f1) mid) f2).warnings
        = (processEvents cfg (processFile cfg t1 s f1) mid).warnings
          ++ [dupWarning cfg.publicDir f2]) ∧
    (cfg.silent = true →
      (processFile cfg t2 (processEvents cfg (processFile cfg t1 s f1) mid) f2).warnings
        = (processEvents cfg (processFile cfg t1 s f1) mid).warnings) := by
  have hd1 : resolvedDestOf t1 f1 ∈ (processFile cfg t1 s f1).assetDestSet := by
    by_cases hmem : resolvedDestOf t1 f1 ∈ s.assetDestSet
    · rw [(processFile_dup cfg t1 s f1 hmem).2.1]
      exact hmem
    · rw [(processFile_fresh cfg t1 s f1 hmem).2.1]
      simp
  have hd2 : resolvedDestOf t2 f2
      ∈ (processEvents cfg (processFile cfg t1 s f1) mid).assetDestSet := by
    rw [hdup]
    exact processEvents_destSet_mono cfg mid _ hd1
  obtain ⟨hm, hds, hfs, hw⟩ := processFile_dup cfg t2 _ f2 hd2
  refine ⟨?_, hm, hds, hfs, ?_, ?_⟩
  · intro hins
    rw [(processFile_fresh cfg t1 s f1 hins).1]
    exact mem_mapSet_self _ _ _
  · intro hsil
    rw [hw, if_neg (by simp [hsil])]
  · intro hsil
    rw [hw, if_pos hsil]

def cfgC2 : WatchCfg :=
  ⟨"/r/pub", "/r/assets", false, false, false⟩

def t1C2 : ResolvedTarget :=
  ⟨"/r/pub/x/*.png", "/r/assets", none, [], none, true, false, true, 0, true⟩

def t2C2 : ResolvedTarget :=
  ⟨"/r/pub/y/*.png", "/r/assets", none, [], none, true, false, true, 0, true⟩

/-- C2 witness: two source files from different rules both resolving to
`/r/assets/logo.png`; processing the second leaves the asset map unchanged
and appends the duplicate warning. -/
theorem C2_dedup_first_match_wins_witness :
    resolvedDestOf t2C2 "/r/pub/y/logo.png"
      = resolvedDestOf t1C2 "/r/pub/x/logo.png" ∧
    (processFile cfgC2 t2C2
        (processEvents cfgC2 (processFile cfgC2 t1C2 ⟨[], [], [], [], []⟩ "/r/pub/x/logo.png") [])
        "/r/pub/y/logo.png").assetMap
      = (processEvents cfgC2
          (processFile cfgC2 t1C2 ⟨[], [], [], [], []⟩ "/r/pub/x/logo.png") []).assetMap ∧
    (processFile cfgC2 t2C2
        (processEvents cfgC2 (processFile cfgC2 t1C2 ⟨[], [], [], [], []⟩ "/r/pub/x/logo.png") [])
        "/r/pub/y/logo.png").warnings
      = (processEvents cfgC2
          (processFile cfgC2 t1C2 ⟨[], [], [], [], []⟩ "/r/pub/x/logo.png") []).warnings
        ++ [dupWarning "/r/pub" "/r/pub/y/logo.png"] :=
  ⟨by decide,
    (C2_dedup_first_match_wins cfgC2 ⟨[], [], [], [], []⟩ [] t1C2 t2C2
      "/r/pub/x/logo.png" "/r/pub/y/logo.png" (by decide)).2.1,
    (C2_dedup_first_match_wins cfgC2 ⟨[], [], [], [], []⟩ [] t1C2 t2C2
      "/r/pub/x/logo.png" "/r/pub/y/logo.png" (by decide)).2.2.2.2.1 rfl⟩

def cfgC3 : WatchCfg :=
  ⟨"/r/pub", "/r/assets", false, false, true⟩

def targetC3 : ResolvedTarget :=
  ⟨"/r/pub/icons/icon-*.svg", "/r/snippets", none, [],
    some (.fixed "icon-a.liquid"), true, false, true, 0, true⟩

/-- C3 counterexample: the claim states the protected-basenames set equals
exactly the destination-relative basenames of the tracked files (renamed
basenames included, no leftovers).  Rebuilding with one renamed entry from a
prior state shows the set holds the source basename `icon-a.svg` plus the
stale leftover `old.js`, and does not contain the tracked destination
basename `icon-a.liquid`. -/
theorem C3_protected_basenames_counterexample :
    (buildStartPass cfgC3 ⟨[], [], [], ["old.js"], []⟩ [targetC3]
        (fun _ _ => ["/r/pub/icons/icon-a.svg"])).assetFilesSet
      = ["old.js", "icon-a.svg"] ∧
    ((buildStartPass cfgC3 ⟨[], [], [], ["old.js"], []⟩ [targetC3]
        (fun _ _ => ["/r/pub/icons/icon-a.svg"])).assetMap.map
          (fun p => basenameOf p.2.dest))
      = ["icon-a.liquid"] ∧
    "icon-a.liquid" ∉ (buildStartPass cfgC3 ⟨[], [], [], ["old.js"], []⟩ [targetC3]
        (fun _ _ => ["/r/pub/icons/icon-a.svg"])).assetFilesSet := by
  refine ⟨by decide, by decide, by decide⟩

/-- C3 amended: after a rebuild, membership in the protected-basenames set
is exactly membership in the previous set (the set is never cleared) or
being the source basename of a key of the rebuilt asset map — source
basenames, not renamed destination basenames. -/
theorem C3_protected_basenames_amended (cfg : WatchCfg) (s : BuildState)
    (targets : List ResolvedTarget)
    (glob : String → List String → List String) (x : String) :
    x ∈ (buildStartPass cfg s targets glob).assetFilesSet ↔
      x ∈ s.assetFilesSet ∨
        x ∈ (mapKeys (buildStartPass cfg s targets glob).assetMap).map basenameOf := by
  rw [buildStartPass_eq_processEvents]
  exact processEvents_filesSet_iff cfg (flattenEvents targets glob)
    { s with assetMap := [], assetDestSet := [] } (by simp [mapKeys]) x

/-- C3 amended witness at the counterexample inputs: `old.js` stays
protected across the rebuild. -/
theorem C3_protected_basenames_amended_witness :
    "old.js" ∈ (buildStartPass cfgC3 ⟨[], [], [], ["old.js"], []⟩ [targetC3]
        (fun _ _ => ["/r/pub/icons/icon-a.svg"])).assetFilesSet ↔
      "old.js" ∈ (["old.js"] : List String) ∨
        "old.js" ∈ (mapKeys (buildStartPass cfgC3 ⟨[], [], [], ["old.js"], []⟩ [targetC3]
          (fun _ _ => ["/r/pub/icons/icon-a.svg"])).assetMap).map basenameOf :=
  C3_protected_basenames_amended cfgC3 ⟨[], [], [], ["old.js"], []⟩ [targetC3]
    (fun _ _ => ["/r/pub/icons/icon-a.svg"]) "old.js"

/-- C4 counterexample: the claim states the clean flag is true iff
`emptyOutDir` is not disabled and the theme assets directory is strictly
nested under the theme root.  In the manifest-diffing variant the flag is
true for an unset `emptyOutDir` even when the assets directory `/x` is not
nested under the theme root `/r` (the bundle-diffing flag is false there). -/
theorem C4_clean_flag_counterexample :
    cleanFlagManifest none = true ∧
    isChildDir "/r" "/x" = false ∧
    cleanFlagBundle none "/r" "/x" = false := by
  refine ⟨by decide, by decide, by decide⟩

/-- C4 amended: the bundle-diffing clean flag holds iff `emptyOutDir` is not
disabled and the assets directory is a strict child of the theme root; the
manifest-diffing flag only requires `emptyOutDir` not disabled; and with the
flag off, both cleanup passes delete nothing. -/
theorem C4_clean_flag_amended (e : Option Bool) (tr tad : String)
    (targets : List ResolvedTarget) (s : BuildState) (taf : List String)
    (bundle : List (String × BundleEntry)) (globM : String → List String)
    (mf : Option String) (fiad : List String)
    (bl : String → Option (List (String × ManifestBlock)))
    (globI : String → List String → List String) :
    (cleanFlagBundle e tr tad = true ↔ (e ≠ some false ∧ isChildDir tr tad = true)) ∧
    (cleanFlagManifest e = true ↔ e ≠ some false) ∧
    writeBundleClean false tad targets s taf bundle globM = ⟨[], true⟩ ∧
    writeBundleManifest false mf tad s fiad bl globI = ⟨[], true⟩ := by
  refine ⟨?_, ?_, rfl, rfl⟩
  · simp [cleanFlagBundle]
  · simp [cleanFlagManifest]

/-- C4 amended witness at concrete configuration values. -/
theorem C4_clean_flag_amended_witness :
    (cleanFlagBundle (some true) "/r" "/r/assets" = true ↔
      ((some true : Option Bool) ≠ some false ∧ isChildDir "/r" "/r/assets" = true)) ∧
    writeBundleClean false "/r/assets" [] ⟨[], [], [], [], []⟩ [] []
      (fun _ => []) = ⟨[], true⟩ :=
  ⟨(C4_clean_flag_amended (some true) "/r" "/r/assets" [] ⟨[], [], [], [], []⟩
      [] [] (fun _ => []) none [] (fun _ => none) (fun _ _ => [])).1,
    (C4_clean_flag_amended (some true) "/r" "/r/assets" [] ⟨[], [], [], [], []⟩
      [] [] (fun _ => []) none [] (fun _ => none) (fun _ _ => [])).2.2.1⟩

/-- C5: `resolveCleanMatch` on a supplied (nonempty) pattern returns `none`
with a warning when not silent exactly when the destination is unset (or
JS-falsy empty) or equals the canonical asset directory name, or the
pattern is one of the reserved match-everything forms; otherwise it returns
the pattern anchored at the rule's destination under the theme root. -/
theorem C5_resolveCleanMatch_spec (themeRoot : String) (dest : Option String)
    (cm : String) (silent : Bool) (h : cm ≠ "") :
    resolveCleanMatch themeRoot dest (some cm) silent =
      if dest = none ∨ dest = some "" ∨ dest = some THEME_ASSETS_DIRNAME
          ∨ cm = "**/*" ∨ cm = "**/*.*" ∨ cm = "**" ∨ cm = "*" ∨ cm = "*.*"
      then (none, !silent)
      else (some (normalizePath (joinPath (joinPath themeRoot (dest.getD "")) cm)), false) := by
  unfold resolveCleanMatch
  cases dest with
  | none => simp [h]
  | some d =>
    by_cases hd : d = "" ∨ d = THEME_ASSETS_DIRNAME
    · rcases hd with hd | hd <;> simp [h, hd]
    · push_neg at hd
      by_cases hcm : cm = "**/*" ∨ cm = "**/*.*" ∨ cm = "**" ∨ cm = "*" ∨ cm = "*.*"
      · simp [h, hd.1, hd.2, hcm]
      · push_neg at hcm
        simp [h, hd.1, hd.2, hcm]

/-- C5 witness: a pattern scoped to a `snippets` destination resolves to the
anchored absolute glob with no warning. -/
theorem C5_resolveCleanMatch_spec_witness :
    ("icon-*.liquid" : String) ≠ "" ∧
    resolveCleanMatch "/r" (some "snippets") (some "icon-*.liquid") false
      = (some "/r/snippets/icon-*.liquid", false) :=
  ⟨by decide,
    C5_resolveCleanMatch_spec "/r" (some "snippets") "icon-*.liquid" false (by decide)⟩

/-! Concrete tracked state for C6: one asset-map entry mapping
`/r/pub/a.txt` to the destination `/r/assets/b.txt`, with its directory
watched and its source basename protected. -/

def targetC6 : ResolvedTarget :=
  ⟨"/r/pub/a.txt", "/r/assets/b.txt", none, [], none, true, false, true, 0, true⟩

def stateC6 : BuildState :=
  ⟨[("/r/pub/a.txt", targetC6)], ["/r/pub"], ["/r/assets/b.txt"], ["a.txt"], []⟩

/-- C6 counterexample: the claim states a delete notification for a tracked
source file deletes the corresponding destination file when it exists.  In
the manifest-diffing variant's `watchChange`, the tracked entry is removed
and a delete event is logged, but no destination unlink is issued at all. -/
theorem C6_watch_delete_counterexample :
    mapKeys stateC6.assetMap = ["/r/pub/a.txt"] ∧
    mapKeys (watchChangeManifestVariant "/r" stateC6 "/r/pub/a.txt" .delete).state.assetMap = [] ∧
    (watchChangeManifestVariant "/r" stateC6 "/r/pub/a.txt" .delete).loggedDelete
      = some "assets/b.txt" ∧
    (watchChangeManifestVariant "/r" stateC6 "/r/pub/a.txt" .delete).unlinkDest = none := by
  refine ⟨by decide, by decide, by decide, by decide⟩

/-- C6 amended: for a delete notification on a tracked file in a watched
directory, both variants remove the asset-map entry and the source basename
from the protected set; the bundle-diffing variant unlinks the destination
exactly when it exists (logging the delete then), while the
manifest-diffing variant logs the delete but issues no unlink. -/
theorem C6_watch_delete_amended (destExists : String → Bool)
    (themeRoot fileChanged : String) (s : BuildState) (asset : ResolvedTarget)
    (h1 : dirnameOf fileChanged ∈ s.assetDirSet)
    (h2 : mapLookup s.assetMap fileChanged = some asset) :
    watchChangeBuild destExists themeRoot s fileChanged .delete =
      ⟨{ s with
          assetMap := mapErase s.assetMap fileChanged
          assetFilesSet := s.assetFilesSet.filter (fun x => x != basenameOf fileChanged) },
        if destExists (normalizePath asset.dest) then some (normalizePath asset.dest) else none,
        if destExists (normalizePath asset.dest) then some (relString themeRoot asset.dest) else none⟩ ∧
    watchChangeManifestVariant themeRoot s fileChanged .delete =
      ⟨{ s with
          assetMap := mapErase s.assetMap fileChanged
          assetFilesSet := s.assetFilesSet.filter (fun x => x != basenameOf fileChanged) },
        none, some (relString themeRoot asset.dest)⟩ := by
  constructor
  · unfold watchChangeBuild
    rw [if_pos h1, h2]
    by_cases hde : destExists (normalizePath asset.dest) = true <;> simp [hde]
  · unfold watchChangeManifestVariant
    rw [if_pos h1, h2]

/-- C6 amended witness: at the tracked state with an existing destination,
the bundle-diffing variant empties the map and set, unlinks
`/r/assets/b.txt` and logs `assets/b.txt`. -/
theorem C6_watch_delete_amended_witness :
    dirnameOf "/r/pub/a.txt" ∈ stateC6.assetDirSet ∧
    watchChangeBuild (fun _ => true) "/r" stateC6 "/r/pub/a.txt" .delete =
      ⟨⟨[], ["/r/pub"], ["/r/assets/b.txt"], [], []⟩,
        some "/r/assets/b.txt", some "assets/b.txt"⟩ :=
  ⟨by decide,
    (C6_watch_delete_amended (fun _ => true) "/r" "/r/pub/a.txt" stateC6 targetC6
      (by decide) rfl).1⟩

/-- C7 counterexample: the claim states cleanup is skipped (nothing deleted)
when the bundle is empty.  The bundle-diffing `writeBundle` has no such
guard: with `clean` on, an empty bundle and a stale file in the assets
directory, it still computes a nonempty deletion set. -/
theorem C7_skip_cleanup_counterexample :
    writeBundleClean true "/r/assets" [] ⟨[], [], [], [], []⟩ ["stale.js"] []
      (fun _ => []) = ⟨["/r/assets/stale.js"], false⟩ := by decide

/-- C7 amended: the manifest-diffing variant skips cleanup entirely (empty
deletion set, early return) when the manifest is not enabled or its asset
is absent from the bundle, and the helper `getFilesToDeleteInThemeAssets`
returns no deletions for an empty bundle; the bundle-diffing `writeBundle`
itself performs no empty-bundle check. -/
theorem C7_skip_cleanup_amended (mf tad : String) (s : BuildState)
    (fiad : List String)
    (bl : String → Option (List (String × ManifestBlock)))
    (globI : String → List String → List String) :
    writeBundleManifest true none tad s fiad bl globI = ⟨[], true⟩ ∧
    writeBundleManifest true (some mf) tad s fiad (fun _ => none) globI = ⟨[], true⟩ ∧
    getFilesToDeleteInThemeAssets tad [] fiad = [] :=
  ⟨rfl, rfl, rfl⟩

/-- C8: a bare string target resolves exactly as the object target with only
`src` set: same resolved rule, whose destination is the canonical theme
assets directory, with empty ignore list, no rename, no cleanMatch,
dereference on, overwrite allowed, no error-on-exist, and preserved
timestamps (given an absolute theme root, as produced by `resolveOptions`). -/
theorem C8_string_target_equivalence (isDyn : String → Bool)
    (publicDir themeRoot s : String) (silent : Bool)
    (h : isAbsolute themeRoot = true) :
    resolveTargetEntry isDyn publicDir themeRoot
        (joinPath themeRoot THEME_ASSETS_DIRNAME) silent (.inl s) =
      resolveTargetEntry isDyn publicDir themeRoot
        (joinPath themeRoot THEME_ASSETS_DIRNAME) silent (.inr { src := s }) ∧
    resolveTargetEntry isDyn publicDir themeRoot
        (joinPath themeRoot THEME_ASSETS_DIRNAME) silent (.inl s) =
      .ok ⟨joinPath publicDir s, joinPath themeRoot THEME_ASSETS_DIRNAME,
        none, [], none, true, false, true, 0, true⟩ := by
  have habs : isAbsolute (joinPath themeRoot THEME_ASSETS_DIRNAME) = true := by
    unfold joinPath
    exact isAbsolute_append _ _ (isAbsolute_append _ _ h)
  have hres : resolvePath themeRoot (joinPath themeRoot THEME_ASSETS_DIRNAME)
      = joinPath themeRoot THEME_ASSETS_DIRNAME := by
    unfold resolvePath
    simp [habs]
  constructor
  · simp [resolveTargetEntry, resolveCleanMatch, hres]
  · simp [resolveTargetEntry, hres]

/-- C8 witness at concrete roots: both target forms resolve to the fully
defaulted rule. -/
theorem C8_string_target_equivalence_witness :
    isAbsolute "/theme" = true ∧
    resolveTargetEntry (fun _ => false) "/pub" "/theme"
        (joinPath "/theme" THEME_ASSETS_DIRNAME) true (.inl "fonts/*.woff") =
      resolveTargetEntry (fun _ => false) "/pub" "/theme"
        (joinPath "/theme" THEME_ASSETS_DIRNAME) true
        (.inr { src := "fonts/*.woff" }) ∧
    resolveTargetEntry (fun _ => false) "/pub" "/theme"
        (joinPath "/theme" THEME_ASSETS_DIRNAME) true (.inl "fonts/*.woff") =
      .ok ⟨"/pub/fonts/*.woff", "/theme/assets",
        none, [], none, true, false, true, 0, true⟩ :=
  ⟨by decide,
    (C8_string_target_equivalence (fun _ => false) "/pub" "/theme"
      "fonts/*.woff" true (by decide)).1,
    (C8_string_target_equivalence (fun _ => false) "/pub" "/theme"
      "fonts/*.woff" true (by decide)).2⟩

/-- A rename callback that returns its third argument, exposing what the
call sites pass as the full source path. -/
def renameC9 : String → String → String → String :=
  fun _ _ s => s

def targetC9 : ResolvedTarget :=
  ⟨"/r/pub/**", "/d", none, [], some (.func renameC9), true, false, true, 0, true⟩

/-- C9 counterexample: the claim states the rename callback always receives
the file's original full source path as its third argument, including
during incremental watch-event copies and deletes.  With a callback that
returns its third argument, `copyAsset`'s destination for the changed file
`a/b.txt` is `/d/b.txt` — the callback received the basename `b.txt`, not
the full path (which would have produced `/d/a/b.txt`). -/
theorem C9_rename_args_counterexample :
    copyAssetDestPath targetC9 "a/b.txt" = "/d/b.txt" ∧
    copyAssetDestPath targetC9 "a/b.txt" ≠ resolvePath "/d" "a/b.txt" := by
  refine ⟨by decide, by decide⟩

/-- C9 amended: a rename callback always receives the parsed base name and
the extension without its leading dot; its third argument is the full
source path in the asset-map build (`buildStart`) and in bulk copies
(`copyAllAssets`), but only the changed file's basename in the watch-event
`copyAsset`/`deleteAsset` path computation. -/
theorem C9_rename_args_amended (t : ResolvedTarget)
    (f : String → String → String → String) (file src fc : String)
    (h : t.rename = some (.func f)) :
    processFileName t file
      = f (parseNameExt (basenameOf file)).1
          ((parseNameExt (basenameOf file)).2.drop 1) file ∧
    copyAllAssetsDestPath t src
      = resolvePath t.dest
          (f (parseNameExt (basenameOf src)).1
            ((parseNameExt (basenameOf src)).2.drop 1) src) ∧
    copyAssetDestPath t fc
      = resolvePath t.dest
          (f (parseNameExt (basenameOf fc)).1
            ((parseNameExt (basenameOf fc)).2.drop 1) (basenameOf fc)) := by
  simp [processFileName, copyAllAssetsDestPath, copyAssetDestPath, renameFile, h]

/-- C9 amended witness: the build-pass filename for `/r/pub/a/b.txt` is the
full path (the callback returned its third argument), while the watch-event
destination uses only the basename. -/
theorem C9_rename_args_amended_witness :
    targetC9.rename = some (.func renameC9) ∧
    processFileName targetC9 "/r/pub/a/b.txt" = "/r/pub/a/b.txt" ∧
    copyAssetDestPath targetC9 "a/b.txt" = "/d/b.txt" :=
  ⟨rfl,
    (C9_rename_args_amended targetC9 renameC9 "/r/pub/a/b.txt" "x" "a/b.txt" rfl).1,
    (C9_rename_args_amended targetC9 renameC9 "/r/pub/a/b.txt" "x" "a/b.txt" rfl).2.2⟩

/-- C10: the watched-directories set is never cleared by rebuilds: across
any sequence of build cycles (each a `buildStart` pass over its own targets
and glob results), every directory present before remains present after;
the protected-basenames set likewise survives the rebuilds (the pass clears
only the asset map and the dedup set). -/
theorem C10_watched_dirs_persist (cfg : WatchCfg)
    (cycles : List (List ResolvedTarget × (String → List String → List String)))
    (s : BuildState) (d x : String)
    (hd : d ∈ s.assetDirSet) (hx : x ∈ s.assetFilesSet) :
    d ∈ (cycles.foldl (fun st c => buildStartPass cfg st c.1 c.2) s).assetDirSet ∧
    x ∈ (cycles.foldl (fun st c => buildStartPass cfg st c.1 c.2) s).assetFilesSet := by
  induction cycles generalizing s with
  | nil => exact ⟨hd, hx⟩
  | cons c cs ih =>
    simp only [List.foldl_cons]
    apply ih
    · rw [buildStartPass_eq_processEvents]
      exact processEvents_dirSet_mono cfg _ _ hd
    · rw [buildStartPass_eq_processEvents]
      exact processEvents_filesSet_mono cfg _ _ hx

/-- C10 witness: a watched directory and a protected basename survive a
later cycle that matches no files at all. -/
theorem C10_watched_dirs_persist_witness :
    "/r/pub" ∈ (([([], fun _ _ => [])] :
        List (List ResolvedTarget × (String → List String → List String))).foldl
      (fun st c => buildStartPass ⟨"/r/pub", "/r/assets", true, true, true⟩ st c.1 c.2)
      ⟨[], ["/r/pub"], [], ["a.txt"], []⟩).assetDirSet ∧
    "a.txt" ∈ (([([], fun _ _ => [])] :
        List (List ResolvedTarget × (String → List String → List String))).foldl
      (fun st c => buildStartPass ⟨"/r/pub", "/r/assets", true, true, true⟩ st c.1 c.2)
      ⟨[], ["/r/pub"], [], ["a.txt"], []⟩).assetFilesSet :=
  C10_watched_dirs_persist ⟨"/r/pub", "/r/assets", true, true, true⟩
    [([], fun _ _ => [])] ⟨[], ["/r/pub"], [], ["a.txt"], []⟩
    "/r/pub" "a.txt" (by decide) (by decide)

end ShopifyAssets
